import Mathlib

/-!
Verification of the gitparent (gitp) core against its specification.

The definitions below are a shallow embedding of src/gitparent/gitp.py:
pure fragments of the Python source become Lean functions, filesystem and
git queries become explicit oracle parameters, and Python exceptions
become Except results.  Names follow the source where Lean permits.
-/

deriving instance DecidableEq for Except

namespace Gitp

/-- Enumeration describing the state of a child repo (class RepoState). -/
inductive RepoState where
  | CLEAN
  | MODIFIED
  | UNALIGNED
  | NONEXISTENT
  | UNLINKED
  | OVERLAYED
deriving DecidableEq, Repr

/-- A repo entry of a .gitp_manifest file (class Manifest.Repo).  Every
field is initialised to None in the source; None is modelled as none. -/
structure Repo where
  url : Option String := none
  branch : Option String := none
  commit : Option String := none
  link : Option String := none
  link_newest : Option Bool := none
  link_filter : Option String := none
  type : Option String := none
deriving DecidableEq, Repr

/-- In-memory representation of a .gitp_manifest file (class Manifest).
The repos dict is modelled as an association list in insertion order. -/
structure Manifest where
  repos : List (String × Repo) := []
  lock_server : Option (String × Nat) := none
  post_clone : List String := []
  post_pull : List String := []
deriving DecidableEq, Repr

/-- Raw YAML form of one repo entry: the seven known keys, each possibly
absent, plus any unknown keys that appeared in the entry mapping. -/
structure RawRepo where
  url : Option String := none
  branch : Option String := none
  commit : Option String := none
  link : Option String := none
  link_newest : Option Bool := none
  link_filter : Option String := none
  type : Option String := none
  unknown_keys : List String := []
deriving DecidableEq, Repr

/-- Raw YAML form of a whole .gitp_manifest file: the four top-level
keys, each possibly absent. -/
structure RawManifest where
  lock_server : Option String := none
  post_clone : Option (List String) := none
  post_pull : Option (List String) := none
  repos : Option (List (String × RawRepo)) := none
deriving DecidableEq, Repr

/-- Python truthiness of an optional string: None and the empty string
are falsy, every other string is truthy. -/
def pyTruthyStr : Option String → Bool
  | none => false
  | some s => s ≠ ""

/-- String prefix test over the character list (Python startswith,
str.startswith and re anchoring are modelled with it). -/
def strStartsWith (s p : String) : Bool :=
  p.data.isPrefixOf s.data

/-- String suffix test over the character list (Python endswith). -/
def strEndsWith (s p : String) : Bool :=
  p.data.isSuffixOf s.data

/-- Drop the first n characters of a string. -/
def strDrop (s : String) (n : Nat) : String :=
  String.mk (s.data.drop n)

/-- Longest all-digit prefix of a string (the regex group \x28\d+\x29
applied at the current position). -/
def strDigitPrefix (s : String) : String :=
  String.mk (s.data.takeWhile Char.isDigit)

/-- Remainder of a string after its all-digit prefix. -/
def strAfterDigits (s : String) : String :=
  String.mk (s.data.dropWhile Char.isDigit)

/-- Python str.strip: remove leading and trailing whitespace. -/
def pystrip (s : String) : String :=
  String.mk
    (((s.data.dropWhile Char.isWhitespace).reverse.dropWhile
      Char.isWhitespace).reverse)

/-- Fuelled worker for splitting a character list at every occurrence
of a nonempty separator, left to right. -/
def splitOnListGo (sep : List Char) :
    Nat → List Char → List Char → List (List Char)
  | 0, l, acc => [acc.reverse ++ l]
  | _ + 1, [], acc => [acc.reverse]
  | fuel + 1, c :: rest, acc =>
    if sep.isPrefixOf (c :: rest) then
      acc.reverse :: splitOnListGo sep fuel ((c :: rest).drop sep.length) []
    else
      splitOnListGo sep fuel rest (c :: acc)

/-- Split a string at every occurrence of a nonempty separator. -/
def strSplitOn (s sep : String) : List String :=
  (splitOnListGo sep.data (s.data.length + 1) s.data []).map String.mk

/-- Join a list of strings with a separator. -/
def strIntercalate (sep : String) (xs : List String) : String :=
  String.mk (List.intercalate sep.data (xs.map String.data))

/-- Numeric value of a digit run (the int conversion applied to a
regex \d+ group). -/
def digitsToNat (l : List Char) : Nat :=
  l.foldl (fun acc c => 10 * acc + (c.toNat - 48)) 0

/-- Trailing path-separator trim applied to child keys by
Manifest.populate: if child.endswith(os.sep): child = child[:-1]. -/
def stripTrailingSep (s : String) : String :=
  if strEndsWith s "/" then String.mk s.data.dropLast else s

/-- Field filling for one entry in Manifest.populate: each known key is
read from the raw mapping, branch defaulting to master and type to repo
when the key is absent. -/
def entryOfRaw (info : RawRepo) : Repo :=
  { url := info.url
    branch := some (info.branch.getD "master")
    commit := info.commit
    link := info.link
    link_newest := info.link_newest
    link_filter := info.link_filter
    type := some (info.type.getD "repo") }

/-- The repos loop of Manifest.populate: trims trailing separators,
rejects duplicate child keys, rejects unknown keys inside an entry, and
rejects a repo-type entry whose url is absent or empty.  The source
performs the last two checks inside its per-key loop; because the type
key is assigned last, the net effect is exactly the checks below. -/
def populateRepos : List (String × RawRepo) → List (String × Repo) →
    Except String (List (String × Repo))
  | [], acc => .ok acc
  | (child, info) :: rest, acc =>
    let child := stripTrailingSep child
    if (acc.map Prod.fst).contains child then
      .error ("Found duplicate repo entry " ++ child)
    else
      let e := entryOfRaw info
      if info.unknown_keys ≠ [] then
        .error ("Unexpected hash keys detected within definition of " ++ child)
      else if ¬ pyTruthyStr e.url ∧ e.type = some "repo" then
        .error ("Missing required key url within definition of " ++ child)
      else
        populateRepos rest (acc ++ [(child, e)])

/-- Lock-server string parsing in Manifest.populate: the stripped string
must match host:port with a colon-free nonempty host and a digit port. -/
def parseLockServer (s : String) : Except String (String × Nat) :=
  match strSplitOn (pystrip s) ":" with
  | [h, p] =>
    if h = "" ∨ p = "" ∨ ¬ p.data.all Char.isDigit then
      .error ("Malformed server string " ++ s)
    else .ok (h, digitsToNat p.data)
  | _ => .error ("Malformed server string " ++ s)

/-- Manifest.populate on a freshly constructed manifest: reads the
optional lock_server, post_clone and post_pull keys and the repos
mapping.  Absent keys leave the attribute defaults (none and []). -/
def Manifest.populate (raw : RawManifest) : Except String Manifest := do
  let ls ← match raw.lock_server with
    | some s => do
      let hp ← parseLockServer s
      pure (some hp)
    | none => pure none
  let repos ← populateRepos (raw.repos.getD []) []
  pure { repos := repos
         lock_server := ls
         post_clone := raw.post_clone.getD []
         post_pull := raw.post_pull.getD [] }

/-- Dict form of one entry in Manifest.as_dict: exactly the fields whose
value is not None are emitted (an Option field is its own record of
presence), and no unknown keys are ever produced. -/
def rawOfRepo (e : Repo) : RawRepo :=
  { url := e.url
    branch := e.branch
    commit := e.commit
    link := e.link
    link_newest := e.link_newest
    link_filter := e.link_filter
    type := e.type
    unknown_keys := [] }

/-- Manifest.as_dict: the serialized dict holds only the repos mapping;
the lock_server, post_clone and post_pull attributes are not emitted. -/
def Manifest.as_dict (m : Manifest) : RawManifest :=
  { lock_server := none
    post_clone := none
    post_pull := none
    repos := some (m.repos.map fun ce => (ce.1, rawOfRepo ce.2)) }

/-- Selection of the post-action hook list in pull.work, line 1472 of
gitp.py: cmds = m.post_pull if operation == Cloning else m.post_clone. -/
def post_cmds (operation : String) (m : Manifest) : List String :=
  if operation = "Cloning" then m.post_pull else m.post_clone

/-- Per-child classification of check_for_state_match for an entry whose
link field is unset (the else branch at lines 558 to 574).  The
filesystem observations are passed in: real_dir is is_real_dir of the
child path, dir_empty is emptiness of its listing, curr_branch and
curr_commit are the observed branch and HEAD commit.  Returns the
mismatch state recorded for the child, or none when the child is not
reported. -/
def check_for_state_match_nolink (real_dir dir_empty : Bool)
    (curr_branch curr_commit : String) (e : Repo) : Option RepoState :=
  if ¬ real_dir then some .NONEXISTENT
  else if dir_empty then some .NONEXISTENT
  else
    let exp_commit := e.commit
    let exp_branch := if pyTruthyStr exp_commit then none else e.branch
    let branch_mismatch :=
      match exp_branch with
      | some b => curr_branch != b
      | none => false
    let commit_mismatch :=
      match exp_commit with
      | some c => !(strStartsWith curr_commit c)
      | none => false
    if branch_mismatch || commit_mismatch then some .UNALIGNED else none

/-- os.path.join for two components: an absolute second component wins,
otherwise the components are joined with a single separator. -/
def path_join (a b : String) : String :=
  if strStartsWith b "/" then b
  else if a = "" then b
  else if strEndsWith a "/" then a ++ b
  else a ++ "/" ++ b

/-- Manifest.get_overlays: the keys of the returned dict, namely
os.path.join of the manifest directory with each child whose entry type
is overlay.  The manifest directory (dirname of the manifest file path)
is passed as manifest_dir; at runtime it is an absolute path. -/
def Manifest.get_overlays (manifest_dir : String) (m : Manifest) :
    List String :=
  (m.repos.filter fun p => p.2.type = some "overlay").map
    fun p => path_join manifest_dir p.1

/-- The recursion guard of commit.work (line 1292): the walk descends
into a child exactly when the bare child name is not a key of the
overlays dict, so a child is skipped exactly when this returns true. -/
def commit_skips_child (overlays : List String) (child : String) : Bool :=
  overlays.contains child

/-- Python list.sort sorts in place and returns None.  The source of
get_latest_subdir binds this None result to its subdirs variable. -/
def pySortInPlaceResult (_xs : List String) : Option (List String) :=
  none

/-- get_latest_subdir, with the filesystem abstracted: regex_valid is
whether re.compile succeeded, isdir_root is os.path.isdir(root),
file_children is the result of filter(os.path.isfile, glob.glob(...)),
and regex_search is the regex search oracle.  The source iterates over
the return value of list.sort, which is None, so reaching the loop
raises a TypeError; the some branch below is the loop the source
intended and is never taken. -/
def get_latest_subdir (regex_valid isdir_root : Bool)
    (file_children : List String) (regex_search : String → Bool)
    (use_regex : Bool) : Except String (Option String) :=
  if ¬ regex_valid then .error "Invalid regular expression specified"
  else if ¬ isdir_root then .error "Specified directory does not exist"
  else
    match pySortInPlaceResult file_children with
    | none => .error "TypeError: NoneType object is not iterable"
    | some subdirs =>
      .ok (subdirs.find? fun d => !use_regex || regex_search d)

/-- A .gitignore file is modelled as the splitOn decomposition of its
text at newlines (a nonempty list of newline-free segments). -/
abbrev GitignoreFile := List String

/-- The lines Python file iteration would yield, stripped of their
terminating newlines: the splitOn decomposition minus the empty last
segment that a trailing newline (or an empty file) produces. -/
def pyFileLines (f : GitignoreFile) : List String :=
  if f.getLast? = some "" then f.dropLast else f

/-- gitignore_add without the check_exists option (as called by new):
appends a newline and the token to the file text, which at splitOn level
appends one segment. -/
def gitignore_add (f : GitignoreFile) (token : String) : GitignoreFile :=
  f ++ [token]

/-- gitignore_rm: reads the file lines, strips each, drops those equal
to the token, and rewrites the file as the newline join of the rest.
The splitOn decomposition of the written text is the surviving stripped
lines, or the empty-text decomposition when none survive. -/
def gitignore_rm (f : GitignoreFile) (token : String) : GitignoreFile :=
  let new_content := ((pyFileLines f).map pystrip).filter
    fun line => line ≠ token
  if new_content = [] then [""] else new_content

/-- Registration step of the new operation (lines 2348 to 2358): the
entry is appended to the manifest repos dict and the child key is added
to .gitignore. -/
def addRepoEntry (m : Manifest) (child : String) (e : Repo) : Manifest :=
  { m with repos := m.repos ++ [(child, e)] }

/-- Manifest half of the rm operation on a child entry (line 1859):
m.pop(child) removes the key from the repos dict. -/
def rmRepoEntry (m : Manifest) (child : String) : Manifest :=
  { m with repos := m.repos.filter fun p => p.1 ≠ child }

/-- A Python value as it can occur in the new_lines list of the stash
rewrite: either a string or a list of strings. -/
inductive PyVal where
  | str (s : String)
  | list (xs : List String)
deriving DecidableEq, Repr

/-- Parse result of is_gitp_stash on one stash line. -/
structure StashEntry where
  pos : String
  branch : String
  msg : String
  id : String
deriving DecidableEq, Repr

/-- is_gitp_stash without an id argument: matches lines of the shape
stash@\x7bPOS\x7d: On BRANCH: MSG where POS is a digit run, BRANCH is
the lazily matched text up to the first colon-space, and MSG starts
with __gitp followed by at least one digit.  The source uses re.search;
gitp-written lines always match at position zero, which is what this
parser checks. -/
def is_gitp_stash (line : String) : Option StashEntry :=
  if strStartsWith line "stash@\x7b" then
    let rest := strDrop line 7
    let pos := strDigitPrefix rest
    let rest := strAfterDigits rest
    if pos ≠ "" ∧ strStartsWith rest "\x7d: On " then
      let rest := strDrop rest 6
      match strSplitOn rest ": " with
      | [] => none
      | first :: tail =>
        if first = "" ∨ tail = [] then none
        else
          let msg := strIntercalate ": " tail
          if strStartsWith msg "__gitp" ∧ strDigitPrefix (strDrop msg 6) ≠ ""
          then some { pos := pos
                      branch := first
                      msg := msg
                      id := strDigitPrefix (strDrop msg 6) }
          else none
    else none
  else none

/-- The substitution re.sub applies per line in stash.update_stash_pos:
a line of the shape stash@\x7bN\x7d... has N replaced by the index i. -/
def renumber_line (i : Nat) (line : String) : String :=
  if strStartsWith line "stash@\x7b" then
    let rest := strDrop line 7
    let digits := strDigitPrefix rest
    let rest := strAfterDigits rest
    if digits ≠ "" ∧ strStartsWith rest "\x7d" then
      "stash@\x7b" ++ toString i ++ "\x7d" ++ strDrop rest 1
    else line
  else line

/-- stash.update_stash_pos applied to the new_lines list: re.sub on
each element requires it to be a string; a list element raises a
TypeError. -/
def update_stash_pos (lines : List PyVal) : Except String (List PyVal) :=
  lines.enum.mapM fun il =>
    match il.2 with
    | .str s => .ok (PyVal.str (renumber_line il.1 s))
    | .list _ => .error "TypeError: expected string or bytes-like object"

/-- The post-drop rewrite of .gitp_stashes (lines 1173 to 1179): for
each line whose message is not among the dropped target messages the
source appends the entire lines variable to new_lines (not the single
line), then renumbers new_lines and would write it out. -/
def stash_drop_rewrite (lines : List String) (tgt_msgs : List String) :
    Except String (List PyVal) := do
  let keep ← lines.filterM fun l =>
    match is_gitp_stash l with
    | some e => .ok (decide (e.msg ∉ tgt_msgs))
    | none => .error "TypeError: bool object is not subscriptable"
  update_stash_pos (keep.map fun _ => PyVal.list lines)

/-- The rewrite the stash-file invariant describes, modelled from the
spec: collect the surviving lines themselves, in order, and renumber
their positions so the top is position zero. -/
def spec_stash_drop_rewrite (lines : List String)
    (tgt_msgs : List String) : Except String (List String) := do
  let keep ← lines.filterM fun l =>
    match is_gitp_stash l with
    | some e => .ok (decide (e.msg ∉ tgt_msgs))
    | none => .error "TypeError: bool object is not subscriptable"
  pure (keep.enum.map fun il => renumber_line il.1 il.2)

/-- State of the lock server event loop: queue is the EVENTS list of
waiting connections in arrival order (each connection identified by a
number standing for its event object), and holders are the connections
whose notify_change loop has observed place zero and whose handler has
not yet run its finally block. -/
structure LockState where
  queue : List Nat := []
  holders : List Nat := []
deriving DecidableEq, Repr

/-- Atomic steps of the lock server scheduler, one constructor per
suspension-free block of handle_lock_req.  arrive is the admission
check plus EVENTS.append; grant is the notify_change scan observing
place zero (the connection must still be queued, must be at the head of
EVENTS, and must not have been granted already, since notify_change
breaks after granting); leave is the finally block run on release,
disconnect or timeout, which removes the connection from EVENTS and
ends any holding. -/
inductive LockStep (max_conns : Nat) : LockState → LockState → Prop where
  | arrive (s : LockState) (id : Nat) :
      id ∉ s.queue → s.queue.length < max_conns →
      LockStep max_conns s { queue := s.queue ++ [id], holders := s.holders }
  | grant (s : LockState) (id : Nat) :
      s.queue.head? = some id → id ∉ s.holders →
      LockStep max_conns s { queue := s.queue, holders := id :: s.holders }
  | leave (s : LockState) (id : Nat) :
      LockStep max_conns s
        { queue := s.queue.erase id, holders := s.holders.erase id }

/-- States of the lock server reachable from the empty initial state
under any schedule of arrivals, grants and departures. -/
inductive LockReach (max_conns : Nat) : LockState → Prop where
  | init : LockReach max_conns { queue := [], holders := [] }
  | step {s t : LockState} : LockReach max_conns s →
      LockStep max_conns s t → LockReach max_conns t

/-- Invariant of the lock server event loop: the granted connections
are distinct and every granted connection sits at the head of the
EVENTS queue (hence there is at most one of them). -/
def holders_head_inv (s : LockState) : Prop :=
  s.holders.Nodup ∧ ∀ h ∈ s.holders, s.queue.head? = some h

/-- Oracle bundle for check_for_changes: the filesystem and git queries
the function performs.  branch_r_has models the substring membership
test on the output of git branch -r (run in the working directory), and
manifest_children is get_manifest composed with iteration over child
keys (none when no manifest exists). -/
structure ChangesEnv where
  isdir : String → Bool
  status_porcelain : String → Bool → String
  log_branches_not_remotes : String → String
  remotes : String → List String
  current_branch : String → String
  rev_list_count : String → String → String → Option Nat
  branch_r_has : String → Bool
  manifest_children : String → Option (List String)

/-- check_for_changes.  The source returns a fresh empty list when root
is not a directory; otherwise it may append (root, commit count) and
recurse into manifest children, threading the shared ans list.  The
recursive calls discard the callee return value and keep only the
mutation of ans, which the isdir conditional after each child call
reproduces (a non-directory callee returns early without mutating).
When the change test fires with no remotes configured, the loop
variables remote and curr_branch are never bound and the following
membership test raises a NameError.  Recursion is fuelled; fuel is
irrelevant on the early-return path. -/
def check_for_changes (env : ChangesEnv) (fuel : Nat) (root : String)
    (recurse ignore_committed ignore_uncommitted ignore_untracked
      ignore_local_branches : Bool) (ans : List (String × Nat)) :
    Except String (List (String × Nat)) :=
  if ¬ env.isdir root then .ok []
  else match fuel with
    | 0 => .error "recursion fuel exhausted"
    | fuel + 1 => do
      let changed :=
        (!ignore_uncommitted
          && env.status_porcelain root ignore_untracked != "")
        || (!ignore_committed && env.log_branches_not_remotes root != "")
      let ans1 ←
        if changed then
          let remotes := env.remotes root
          let curr_branch := env.current_branch root
          let commit_cnt := remotes.foldl
            (fun acc r =>
              max acc ((env.rev_list_count r curr_branch root).getD 0)) 0
          match remotes.getLast? with
          | none => Except.error "NameError: name remote is not defined"
          | some last_remote =>
            if !env.branch_r_has (last_remote ++ "/" ++ curr_branch)
                && ignore_local_branches then
              pure ans
            else
              pure (ans ++ [(root, commit_cnt)])
        else pure ans
      match env.manifest_children root with
      | none => pure ans1
      | some children =>
        if ¬ recurse then pure ans1
        else
          children.foldlM
            (fun acc child => do
              let child_path := path_join root child
              let sub ← check_for_changes env fuel child_path true
                ignore_committed ignore_uncommitted ignore_untracked
                false acc
              pure (if env.isdir child_path then sub else acc))
            ans1

/-- Example manifest with distinct post-clone and post-pull hooks. -/
def mfHooks : Manifest :=
  { post_clone := ["./after_clone.sh"], post_pull := ["./after_pull.sh"] }

/-- Example manifest carrying a post_clone list and no entries. -/
def mfPostClone : Manifest := { post_clone := ["echo hi"] }

/-- Example manifest with a plain child and a top-level overlay entry. -/
def mfOverlay : Manifest :=
  { repos := [("a", { type := some "repo", url := some "ssh://host/a" }),
              ("a/b", { type := some "overlay", link := some "c/d" })] }

/-- Example raw manifest whose sole entry sets link but omits url. -/
def rawLinkOnly : RawManifest :=
  { repos := some [("x", { link := some "libs/foo" })] }

/-- Example well-formed .gitp_stashes content with two entries. -/
def stashLinesEx : List String :=
  ["stash@\x7b0\x7d: On master: __gitp220101 fix",
   "stash@\x7b1\x7d: On master: __gitp220102 wip"]

/-- Example parsed manifest whose entries satisfy the populate
invariants. -/
def mfRound : Manifest :=
  { repos := [("sub", { url := some "ssh://host/sub"
                        branch := some "master"
                        type := some "repo" })] }

/-- Example oracle bundle on which no path is a directory. -/
def envNoDir : ChangesEnv :=
  { isdir := fun _ => false
    status_porcelain := fun _ _ => ""
    log_branches_not_remotes := fun _ => ""
    remotes := fun _ => []
    current_branch := fun _ => ""
    rev_list_count := fun _ _ _ => none
    branch_r_has := fun _ => false
    manifest_children := fun _ => none }

/-- C1: the recursive sync/pull walker is claimed to run the post_clone
commands after a clone and the post_pull commands after a pull; the
source selects post_pull when the operation is Cloning and post_clone
otherwise, so the two hook lists are executed swapped. -/
theorem C1_post_hooks_swapped :
    post_cmds "Cloning" mfHooks = ["./after_pull.sh"] ∧
    post_cmds "Pulling" mfHooks = ["./after_clone.sh"] ∧
    mfHooks.post_clone = ["./after_clone.sh"] ∧
    mfHooks.post_pull = ["./after_pull.sh"] :=
  ⟨rfl, rfl, rfl, rfl⟩

/-- C6: commit.work is claimed to skip every top-level overlay target;
the overlays dict is keyed by absolute paths while the walk tests the
bare child name, so the guard never fires and the overlay target is
descended into rather than skipped. -/
theorem C6_overlay_target_not_skipped :
    Manifest.get_overlays "/top" mfOverlay = ["/top/a/b"] ∧
    commit_skips_child (Manifest.get_overlays "/top" mfOverlay) "a/b"
      = false := by
  constructor <;> decide

/-- C7: get_latest_subdir is claimed to return the most recently
modified matching child subdirectory or none; for every existing
directory the source instead binds the None returned by list.sort and
raises a TypeError when iterating it. -/
theorem C7_get_latest_subdir_type_error :
    get_latest_subdir true true ["/w/build1", "/w/build2"]
      (fun _ => true) true
      = .error "TypeError: NoneType object is not iterable" := by decide

/-- C5: after a mutating stash operation the .gitp_stashes file is
claimed to hold one renumbered line per surviving entry; on a drop with
a survivor the source appends the entire lines list per survivor and
the renumbering step raises a TypeError, while the rewrite the claim
describes would produce the single renumbered surviving line. -/
theorem C5_stash_rewrite_type_error :
    stash_drop_rewrite stashLinesEx ["__gitp220101 fix"]
      = .error "TypeError: expected string or bytes-like object" ∧
    spec_stash_drop_rewrite stashLinesEx ["__gitp220101 fix"]
      = .ok ["stash@\x7b0\x7d: On master: __gitp220102 wip"] := by
  constructor <;> decide

/-- C3 counterexample: serializing a manifest that carries a post_clone
list and parsing the result does not yield the manifest back, because
Manifest.as_dict emits only the repos mapping. -/
theorem C3_roundtrip_counterexample :
    Manifest.populate (Manifest.as_dict mfPostClone)
      = .ok { repos := [], lock_server := none,
              post_clone := [], post_pull := [] } ∧
    mfPostClone.post_clone = ["echo hi"] ∧
    Manifest.populate (Manifest.as_dict mfPostClone)
      ≠ .ok mfPostClone := by
  refine ⟨by decide, by decide, by decide⟩

/-- C4 counterexample: a repo entry that sets link but omits url is
rejected by Manifest.populate with the missing-url error, so parsing
such a manifest does not succeed. -/
theorem C4_link_only_entry_rejected :
    Manifest.populate rawLinkOnly
      = .error "Missing required key url within definition of x" := by
  decide

/-- C8 counterexample: new X followed by rm X does not restore the
.gitignore file exactly: a prior line with trailing whitespace comes
back stripped. -/
theorem C8_gitignore_not_restored :
    gitignore_rm (gitignore_add ["foo "] "X") "X" = ["foo"] ∧
    ["foo"] ≠ ["foo "] := by
  refine ⟨by decide, by decide⟩

/-- C10: for every root that is not an existing directory,
check_for_changes returns the empty list without raising, whatever the
recurse and ignore flags are. -/
theorem C10_not_a_directory_empty (env : ChangesEnv) (fuel : Nat)
    (root : String)
    (recurse ignore_committed ignore_uncommitted ignore_untracked
      ignore_local_branches : Bool) (ans : List (String × Nat))
    (h : env.isdir root = false) :
    check_for_changes env fuel root recurse ignore_committed
      ignore_uncommitted ignore_untracked ignore_local_branches ans
      = .ok [] := by
  unfold check_for_changes
  simp [h]

/-- Witness for C10 at a concrete oracle bundle and inputs. -/
theorem C10_not_a_directory_empty_witness :
    check_for_changes envNoDir 3 "/repo" true false false false false []
      = .ok [] :=
  C10_not_a_directory_empty envNoDir 3 "/repo" true false false false
    false [] rfl

/-- C2: for a manifest entry with no link whose directory is a
non-empty real directory, check_for_state_match reports UNALIGNED
exactly when a commit pin is declared and the observed HEAD commit
does not start with it, or no commit pin is declared and the observed
branch differs from the declared branch; a declared commit takes
precedence and the branch is then not compared.  The hypothesis
excludes the degenerate empty-string commit pin, which Python
truthiness treats as undeclared. -/
theorem C2_state_match_unaligned_iff (e : Repo) (cb cc : String)
    (hc : e.commit ≠ some "") :
    check_for_state_match_nolink true false cb cc e
        = some RepoState.UNALIGNED ↔
      ((∃ c, e.commit = some c ∧ ¬ strStartsWith cc c) ∨
       (e.commit = none ∧ ∃ b, e.branch = some b ∧ cb ≠ b)) := by
  rcases hco : e.commit with _ | c
  · rcases hbr : e.branch with _ | b
    · simp [check_for_state_match_nolink, pyTruthyStr, hco, hbr]
    · by_cases h : cb = b <;>
        simp [check_for_state_match_nolink, pyTruthyStr, hco, hbr, h]
  · have hcne : c ≠ "" := by
      intro h
      exact hc (by rw [hco, h])
    by_cases h : strStartsWith cc c <;>
      simp [check_for_state_match_nolink, pyTruthyStr, hco, hcne, h]

/-- Witness for C2 at a concrete pinned entry and observations. -/
theorem C2_state_match_unaligned_iff_witness :
    (check_for_state_match_nolink true false "master" "def0"
        { commit := some "abc123" } = some RepoState.UNALIGNED ↔
      ((∃ c, ({ commit := some "abc123" } : Repo).commit = some c ∧
          ¬ strStartsWith "def0" c) ∨
       (({ commit := some "abc123" } : Repo).commit = none ∧
        ∃ b, ({ commit := some "abc123" } : Repo).branch = some b ∧
          "master" ≠ b))) :=
  C2_state_match_unaligned_iff { commit := some "abc123" } "master"
    "def0" (by decide)

/-- Round trip of entry field filling for entries whose branch and type
are present. -/
theorem entryOfRaw_rawOfRepo (e : Repo) (hb : e.branch.isSome = true)
    (ht : e.type.isSome = true) : entryOfRaw (rawOfRepo e) = e := by
  rcases e with ⟨u, b0, c0, l0, ln0, lf0, t0⟩
  simp only [Option.isSome_iff_exists] at hb ht
  obtain ⟨b, rfl⟩ := hb
  obtain ⟨t, rfl⟩ := ht
  simp [entryOfRaw, rawOfRepo]

/-- The populate loop inverts serialization entry by entry when the
keys are trimmed and distinct and each entry has its branch and type
present and a truthy url on repo-type entries. -/
theorem populateRepos_map (l : List (String × Repo)) :
    ∀ acc : List (String × Repo),
    (∀ p ∈ l, stripTrailingSep p.1 = p.1) →
    ((acc.map Prod.fst ++ l.map Prod.fst).Nodup) →
    (∀ p ∈ l, p.2.branch.isSome = true) →
    (∀ p ∈ l, p.2.type.isSome = true) →
    (∀ p ∈ l, p.2.type = some "repo" → pyTruthyStr p.2.url = true) →
    populateRepos (l.map fun ce => (ce.1, rawOfRepo ce.2)) acc
      = .ok (acc ++ l) := by
  induction l with
  | nil => intro acc _ _ _ _ _; simp [populateRepos]
  | cons hd tl ih =>
    intro acc hkeys hnd hb ht hu
    obtain ⟨c, e⟩ := hd
    have hc : stripTrailingSep c = c := hkeys (c, e) (by simp)
    have hmem : c ∉ acc.map Prod.fst := by
      intro hm
      exact (List.disjoint_of_nodup_append hnd) hm (by simp)
    have hcontains : (acc.map Prod.fst).contains c = false := by
      simpa using hmem
    have he : entryOfRaw (rawOfRepo e) = e :=
      entryOfRaw_rawOfRepo e (hb (c, e) (by simp)) (ht (c, e) (by simp))
    have hcond : ¬ (¬ pyTruthyStr e.url = true ∧ e.type = some "repo") := by
      rintro ⟨h1, h2⟩
      exact h1 (hu (c, e) (by simp) h2)
    have hrec := ih (acc ++ [(c, e)])
      (fun p hp => hkeys p (by simp [hp]))
      (by simpa [List.append_assoc] using hnd)
      (fun p hp => hb p (by simp [hp]))
      (fun p hp => ht p (by simp [hp]))
      (fun p hp => hu p (by simp [hp]))
    have hunkeys : (rawOfRepo e).unknown_keys = [] := rfl
    simp only [List.map_cons, populateRepos, hc, hcontains,
      Bool.false_eq_true, if_false, hunkeys, ne_eq, not_true_eq_false,
      not_false_eq_true, he]
    rw [if_neg hcond]
    simpa [List.append_assoc] using hrec

/-- C3 amended: serializing a manifest and parsing the result restores
the repos mapping (for manifests satisfying the parse invariants: keys
trimmed and distinct, branch and type present, url present on
repo-type entries), but yields an empty lock server and empty
post_clone and post_pull lists, because Manifest.as_dict emits only
the repos mapping. -/
theorem C3_serialize_parse_roundtrip (m : Manifest)
    (hkeys : ∀ p ∈ m.repos, stripTrailingSep p.1 = p.1)
    (hnodup : (m.repos.map Prod.fst).Nodup)
    (hb : ∀ p ∈ m.repos, p.2.branch.isSome = true)
    (ht : ∀ p ∈ m.repos, p.2.type.isSome = true)
    (hu : ∀ p ∈ m.repos, p.2.type = some "repo" →
      pyTruthyStr p.2.url = true) :
    Manifest.populate (Manifest.as_dict m)
      = .ok { repos := m.repos, lock_server := none,
              post_clone := [], post_pull := [] } := by
  have h := populateRepos_map m.repos [] hkeys (by simpa using hnodup)
    hb ht hu
  simp [Manifest.populate, Manifest.as_dict, h]

/-- Witness for C3 at a concrete one-entry manifest. -/
theorem C3_serialize_parse_roundtrip_witness :
    Manifest.populate (Manifest.as_dict mfRound)
      = .ok { repos := mfRound.repos, lock_server := none,
              post_clone := [], post_pull := [] } :=
  C3_serialize_parse_roundtrip mfRound (by decide) (by decide)
    (by decide) (by decide) (by decide)

/-- C4 amended: url is a hard requirement for every entry whose type
resolves to repo, link set or not; Manifest.populate rejects any such
entry whose url is absent or empty (only overlay-type entries may omit
url). -/
theorem C4_url_required_even_with_link (child : String) (info : RawRepo)
    (hunk : info.unknown_keys = [])
    (hurl : pyTruthyStr info.url = false)
    (htype : info.type.getD "repo" = "repo") :
    populateRepos [(child, info)] []
      = .error ("Missing required key url within definition of "
          ++ stripTrailingSep child) := by
  simp [populateRepos, entryOfRaw, hunk, hurl, htype]

/-- Witness for C4 at a concrete link-only entry. -/
theorem C4_url_required_even_with_link_witness :
    populateRepos [("y", { link := some "libs/bar" })] []
      = .error ("Missing required key url within definition of "
          ++ stripTrailingSep "y") :=
  C4_url_required_even_with_link "y" { link := some "libs/bar" }
    rfl rfl rfl

/-- C8 amended: new X then rm X restores the serialized manifest dict
exactly (so the manifest file is restored whenever its prior text was
the canonical serialization, which drops lock_server, post_clone and
post_pull), and restores the .gitignore text exactly when every prior
line is already whitespace-stripped and differs from X; in general the
.gitignore comes back with its lines stripped and any line equal to X
removed. -/
theorem C8_new_rm_roundtrip (m : Manifest) (X : String) (e : Repo)
    (c0 : GitignoreFile)
    (hX : X ∉ m.repos.map Prod.fst)
    (hc0 : c0 ≠ [])
    (hlines : ∀ l ∈ c0, pystrip l = l ∧ l ≠ X)
    (hXt : pystrip X = X) (hXne : X ≠ "") :
    Manifest.as_dict (rmRepoEntry (addRepoEntry m X e) X)
      = Manifest.as_dict m ∧
    gitignore_rm (gitignore_add c0 X) X = c0 := by
  constructor
  · have hkey : ∀ p ∈ m.repos, p.1 ≠ X := by
      intro p hp hpx
      exact hX (hpx ▸ List.mem_map_of_mem Prod.fst hp)
    have hrepos : (rmRepoEntry (addRepoEntry m X e) X).repos = m.repos := by
      simp only [rmRepoEntry, addRepoEntry, List.filter_append]
      have h1 : m.repos.filter (fun p => decide (p.1 ≠ X)) = m.repos :=
        List.filter_eq_self.mpr fun p hp => by simp [hkey p hp]
      have h2 : [(X, e)].filter (fun p => decide (p.1 ≠ X)) = [] := by
        simp
      rw [h1, h2, List.append_nil]
    simp [Manifest.as_dict, hrepos]
  · have hlast : (c0 ++ [X]).getLast? = some X := by
      simp [List.getLast?_concat]
    have hfl : pyFileLines (c0 ++ [X]) = c0 ++ [X] := by
      unfold pyFileLines
      rw [hlast]
      simp [hXne]
    have hmap : (c0 ++ [X]).map pystrip = c0 ++ [X] := by
      have h1 : c0.map pystrip = c0 := by
        conv_rhs => rw [← List.map_id c0]
        exact List.map_congr_left fun x hx => (hlines x hx).1
      simp [h1, hXt]
    have hfilter : (c0 ++ [X]).filter (fun l => decide (l ≠ X)) = c0 := by
      rw [List.filter_append]
      have h1 : c0.filter (fun l => decide (l ≠ X)) = c0 :=
        List.filter_eq_self.mpr fun l hl => by simp [(hlines l hl).2]
      rw [h1]
      simp
    unfold gitignore_add gitignore_rm
    rw [hfl, hmap, hfilter]
    simp [hc0]

/-- Witness for C8 at a concrete manifest, child and .gitignore. -/
theorem C8_new_rm_roundtrip_witness :
    Manifest.as_dict (rmRepoEntry (addRepoEntry
        { repos := [("a", { url := some "ssh://host/a",
                            branch := some "master",
                            type := some "repo" })] } "b"
        { url := some "ssh://host/b", branch := some "master",
          type := some "repo" }) "b")
      = Manifest.as_dict
        { repos := [("a", { url := some "ssh://host/a",
                            branch := some "master",
                            type := some "repo" })] } ∧
    gitignore_rm (gitignore_add ["a"] "b") "b" = ["a"] :=
  C8_new_rm_roundtrip _ "b" _ ["a"] (by decide) (by decide) (by decide)
    (by decide) (by decide)

/-- Every scheduler step of the lock server preserves the
head-holding invariant. -/
theorem lockStep_preserves_inv {max_conns : Nat} {s t : LockState}
    (hs : holders_head_inv s) (st : LockStep max_conns s t) :
    holders_head_inv t := by
  cases st with
  | arrive id hni hlen =>
    refine ⟨hs.1, ?_⟩
    intro h hh
    have hq := hs.2 h hh
    cases hql : s.queue with
    | nil => rw [hql] at hq; simp at hq
    | cons a l =>
      rw [hql] at hq
      simp only [List.head?_cons, Option.some.injEq] at hq
      simp [hql, hq]
  | grant id hhead hni =>
    refine ⟨List.nodup_cons.mpr ⟨hni, hs.1⟩, ?_⟩
    intro h hh
    rcases List.mem_cons.mp hh with rfl | hh
    · exact hhead
    · exact hs.2 h hh
  | leave id =>
    refine ⟨hs.1.erase id, ?_⟩
    intro h hh
    have hmem := (List.Nodup.mem_erase_iff hs.1).mp hh
    have hq := hs.2 h hmem.2
    cases hql : s.queue with
    | nil => rw [hql] at hq; simp at hq
    | cons a l =>
      rw [hql] at hq
      simp only [List.head?_cons, Option.some.injEq] at hq
      subst hq
      simp [List.erase_cons, hmem.1]

/-- Every reachable state of the lock server satisfies the
head-holding invariant. -/
theorem lockReach_inv {max_conns : Nat} {s : LockState}
    (h : LockReach max_conns s) : holders_head_inv s := by
  induction h with
  | init => exact ⟨List.nodup_nil, by intro h hh; simp at hh⟩
  | step _ hstep ih => exact lockStep_preserves_inv ih hstep

/-- C9: across any schedule of arrivals, grants, disconnects, timeouts
and releases, the lock server has at most one holder at any instant:
any two granted connections in a reachable state coincide. -/
theorem C9_at_most_one_holder {max_conns : Nat} {s : LockState}
    (hs : LockReach max_conns s) (a b : Nat)
    (ha : a ∈ s.holders) (hb : b ∈ s.holders) : a = b := by
  have hi := lockReach_inv hs
  have h1 := hi.2 a ha
  have h2 := hi.2 b hb
  rw [h1] at h2
  exact Option.some.inj h2

/-- Witness for C9 on a concrete two-step schedule: client 1 arrives
and is granted the lock. -/
theorem C9_at_most_one_holder_witness :
    LockReach 2 { queue := [1], holders := [1] } ∧ (1 : Nat) = 1 := by
  have htrace : LockReach 2 { queue := [1], holders := [1] } := by
    have h1 : LockReach 2 { queue := [] ++ [1], holders := [] } :=
      LockReach.step LockReach.init
        (LockStep.arrive { queue := [], holders := [] } 1 (by simp)
          (by decide))
    exact LockReach.step h1
      (LockStep.grant { queue := [1], holders := [] } 1 rfl (by simp))
  exact ⟨htrace, C9_at_most_one_holder htrace 1 1 (by simp) (by simp)⟩

end Gitp
